import Mathlib

/-!
Shallow embedding of the tracking and scanning core of the isabella
repository (antenna_tracker.py, vtx_service.py, skyzone.py), together with
theorems settling the frozen claims about it.

Conventions of the embedding:
* servo positions are integers (`Int`), RSSI values and angles are exact
  rationals (`ℚ`) standing for the Python floats;
* fallible hardware calls are parameters: an ADC read outcome is an
  `Option ℚ` (`none` = the read raised), a servo position read is an
  `Option Int`, and the success of a servo position write is a `Bool`;
* the mutable `AntennaTracker` object is an explicit `TrackerState` record
  threaded through the operations.
-/

namespace Isabella

/-- Operating modes of the tracker, from the Mode enum. -/
inductive Mode where
  | manual
  | auto
  | scan
  | calibrate_min
  | calibrate_max
deriving DecidableEq

/-- ServoConfig dataclass.  The default field values are the ones in the
source; `center_pos`, `left_limit` and `right_limit` are mutated by the
set_center / set_left_limit / set_right_limit commands. -/
structure ServoConfig where
  center_pos : Int := 2047
  left_limit : Int := 1100
  right_limit : Int := 2700
  step_units : Int := 11
  scan_step_units : Int := 33
deriving DecidableEq

/-- Constants fixed in AntennaTracker.__init__ and never reassigned. -/
def rssi_filter_size : Nat := 1

def rssi_threshold : ℚ := 15

def auto_step_small : Int := 11

def auto_step_medium : Int := 22

def auto_step_large : Int := 44

def auto_deadband : ℚ := 500

def auto_move_cooldown : ℚ := 1 / 10

/-- One sample recorded into scan_data by process_scan. -/
structure ScanEntry where
  position : Int
  angle : ℚ
  left_rssi : ℚ
  right_rssi : ℚ
  total_rssi : ℚ
  difference : ℚ
deriving DecidableEq

/-- One entry of last_scan_results['scan_data'] as published by
finish_scan (the position key is dropped and total_rssi renamed rssi). -/
structure PublishedEntry where
  angle : ℚ
  rssi : ℚ
  left_rssi : ℚ
  right_rssi : ℚ
  difference : ℚ
deriving DecidableEq

/-- The last_scan_results dictionary written by finish_scan.  The Python
code stores an empty dict until a scan completes; that is `none` here. -/
structure ScanResults where
  scan_complete : Bool
  best_position : Int
  best_angle : ℚ
  min_difference : ℚ
  scan_data : List PublishedEntry
deriving DecidableEq

/-- The mutable state of AntennaTracker that the claims are about. -/
structure TrackerState where
  cfg : ServoConfig
  current_mode : Mode
  position : Int
  noise_floor_left : ℚ
  noise_floor_right : ℚ
  rssi_offset : ℚ
  rssi_max_left : ℚ
  rssi_max_right : ℚ
  left_rssi_buffer : List ℚ
  right_rssi_buffer : List ℚ
  scan_data : List ScanEntry
  scan_position : Int
  last_scan_results : Option ScanResults
  last_auto_move_time : ℚ
deriving DecidableEq

/-- The state right after AntennaTracker.__init__ (with the servo read
back at the centre position). -/
def initState : TrackerState where
  cfg := {}
  current_mode := Mode.manual
  position := 2047
  noise_floor_left := 0
  noise_floor_right := 0
  rssi_offset := -600
  rssi_max_left := 4000
  rssi_max_right := 4000
  left_rssi_buffer := []
  right_rssi_buffer := []
  scan_data := []
  scan_position := 1100
  last_scan_results := none
  last_auto_move_time := 0

/-- Python round(x, 1), modelled as round-half-up to a multiple of 1/10 on
exact rationals. -/
def roundTenth (x : ℚ) : ℚ := ((round (x * 10) : ℤ) : ℚ) / 10

/-- position_to_angle. -/
def position_to_angle (cfg : ServoConfig) (position : Int) : ℚ :=
  roundTenth ((((position : ℚ) - (cfg.left_limit : ℚ)) /
    ((cfg.right_limit : ℚ) - (cfg.left_limit : ℚ))) * 146)

/-- Python int() on a float: truncation toward zero. -/
def pyInt (x : ℚ) : Int := if 0 ≤ x then ⌊x⌋ else ⌈x⌉

/-- angle_to_position. -/
def angle_to_position (cfg : ServoConfig) (angle_degrees : ℚ) : Int :=
  let a := max 0 (min 146 angle_degrees)
  pyInt ((cfg.left_limit : ℚ) + (a / 146) *
    ((cfg.right_limit : ℚ) - (cfg.left_limit : ℚ)))

/-- The clamp performed at the top of move_servo. -/
def clampPos (cfg : ServoConfig) (p : Int) : Int :=
  max cfg.left_limit (min cfg.right_limit p)

/-- move_servo: clamp the target into the limits, ignore micro moves of
less than 2 units, otherwise issue a WritePosEx whose success is the
writeOk parameter.  Returns the Python boolean result and the new state.
The speed and acceleration arguments change no modelled state and are
omitted. -/
def move_servo (s : TrackerState) (new_position : Int) (writeOk : Bool) :
    Bool × TrackerState :=
  let np := clampPos s.cfg new_position
  if (np - s.position).natAbs < 2 then (true, s)
  else if writeOk then (true, { s with position := np })
  else (false, s)

/-- Appending to a collections.deque with maxlen: the oldest element is
evicted from the front on overflow. -/
def pushBuf (maxlen : Nat) (buf : List ℚ) (x : ℚ) : List ℚ :=
  let b := buf ++ [x]
  if maxlen < b.length then b.drop (b.length - maxlen) else b

/-- Arithmetic mean of a list. -/
def listMean (l : List ℚ) : ℚ := l.sum / (l.length : ℚ)

/-- read_rssi.  The two raw ADC reads are modelled by the rawL and rawR
outcomes; if either is none the Python code raised inside the try block
before touching the buffers, and the except branch returns (0, 0). -/
def read_rssi (s : TrackerState) (rawL rawR : Option ℚ) :
    (ℚ × ℚ) × TrackerState :=
  match rawL, rawR with
  | some l, some r =>
    let left_calibrated := l - s.noise_floor_left
    let right_calibrated := r - s.noise_floor_right + s.rssi_offset
    let lb := pushBuf rssi_filter_size s.left_rssi_buffer left_calibrated
    let rb := pushBuf rssi_filter_size s.right_rssi_buffer right_calibrated
    let s1 := { s with left_rssi_buffer := lb, right_rssi_buffer := rb }
    if 0 < lb.length then ((listMean lb, listMean rb), s1)
    else ((left_calibrated, right_calibrated), s1)
  | _, _ => ((0, 0), s)

/-- Commands accepted by process_command. -/
inductive Command where
  | left
  | right
  | home
  | set_angle (angle : ℚ)
  | set_center
  | set_left_limit
  | set_right_limit
  | auto
  | manual
  | scan
  | calibrate
  | calibrate_max
  | unknown
deriving DecidableEq

/-- start_scan: enter Scan mode, clear scan_data and last_scan_results,
rewind to the left limit and move there. -/
def start_scan (s : TrackerState) (writeOk : Bool) : TrackerState :=
  let s1 := { s with current_mode := Mode.scan,
                     scan_data := [],
                     last_scan_results := none,
                     scan_position := s.cfg.left_limit }
  (move_servo s1 s1.scan_position writeOk).2

/-- process_command.  readPos models ReadPos on the servo (none when the
read fails), writeOk models the success of any WritePosEx issued. -/
def process_command (s : TrackerState) (cmd : Command) (readPos : Option Int)
    (writeOk : Bool) : Bool × TrackerState :=
  match cmd with
  | .left =>
    let s1 := { s with current_mode := Mode.manual }
    move_servo s1 (s1.position - s1.cfg.step_units) writeOk
  | .right =>
    let s1 := { s with current_mode := Mode.manual }
    move_servo s1 (s1.position + s1.cfg.step_units) writeOk
  | .home =>
    let s1 := { s with current_mode := Mode.manual }
    move_servo s1 s1.cfg.center_pos writeOk
  | .set_angle a =>
    let s1 := { s with current_mode := Mode.manual }
    move_servo s1 (angle_to_position s1.cfg a) writeOk
  | .set_center =>
    match readPos with
    | some p => (true, { s with cfg := { s.cfg with center_pos := p } })
    | none => (false, s)
  | .set_left_limit =>
    match readPos with
    | some p => (true, { s with cfg := { s.cfg with left_limit := p } })
    | none => (false, s)
  | .set_right_limit =>
    match readPos with
    | some p => (true, { s with cfg := { s.cfg with right_limit := p } })
    | none => (false, s)
  | .auto => (true, { s with current_mode := Mode.auto })
  | .manual => (true, { s with current_mode := Mode.manual })
  | .scan =>
    if s.current_mode ≠ Mode.scan then (true, start_scan s writeOk)
    else (true, s)
  | .calibrate =>
    (true, if s.current_mode ≠ Mode.calibrate_min then
      { s with current_mode := Mode.calibrate_min } else s)
  | .calibrate_max =>
    (true, if s.current_mode ≠ Mode.calibrate_max then
      { s with current_mode := Mode.calibrate_max } else s)
  | .unknown => (false, s)

/-- Python min(scan_data, key difference) keeps the first element attaining
the minimum; this is the underlying fold. -/
def foldMinBy (v : α → ℚ) (b : α) (l : List α) : α :=
  l.foldl (fun acc x => if v x < v acc then x else acc) b

/-- The best_data selection of finish_scan. -/
def minByDiff : List ScanEntry → Option ScanEntry
  | [] => none
  | e :: es => some (foldMinBy ScanEntry.difference e es)

/-- The per-entry projection used when finish_scan publishes scan_data. -/
def publishEntry (d : ScanEntry) : PublishedEntry where
  angle := d.angle
  rssi := d.total_rssi
  left_rssi := d.left_rssi
  right_rssi := d.right_rssi
  difference := d.difference

/-- finish_scan: with fewer than 3 samples fall back to Manual without
moving or publishing; otherwise publish results, move to the best
position and switch to Auto. -/
def finish_scan (s : TrackerState) (writeOk : Bool) : TrackerState :=
  if s.scan_data.length < 3 then { s with current_mode := Mode.manual }
  else
    match minByDiff s.scan_data with
    | none => { s with current_mode := Mode.manual }
    | some best =>
      let s1 := { s with last_scan_results := some {
          scan_complete := true,
          best_position := best.position,
          best_angle := best.angle,
          min_difference := best.difference,
          scan_data := s.scan_data.map publishEntry } }
      let s2 := (move_servo s1 best.position writeOk).2
      { s2 with current_mode := Mode.auto }

/-- read_rssi iterated over a list of raw ADC outcome pairs, collecting the
returned readings, as in the five-sample loop of process_scan. -/
def readRssiList (s : TrackerState) (raws : List (Option ℚ × Option ℚ)) :
    List (ℚ × ℚ) × TrackerState :=
  match raws with
  | [] => ([], s)
  | raw :: rest =>
    let rd := read_rssi s raw.1 raw.2
    let tl := readRssiList rd.2 rest
    (rd.1 :: tl.1, tl.2)

/-- process_scan: one scan step of the control loop.  raws are the raw ADC
outcomes of this step's five read_rssi calls. -/
def process_scan (s : TrackerState) (raws : List (Option ℚ × Option ℚ))
    (writeOk : Bool) : TrackerState :=
  if s.cfg.right_limit < s.scan_position then finish_scan s writeOk
  else
    let rd := readRssiList s raws
    let s1 := rd.2
    let avg_left := listMean (rd.1.map Prod.fst)
    let avg_right := listMean (rd.1.map Prod.snd)
    let entry : ScanEntry := {
      position := s1.scan_position,
      angle := position_to_angle s1.cfg s1.scan_position,
      left_rssi := avg_left,
      right_rssi := avg_right,
      total_rssi := avg_left + avg_right,
      difference := |avg_left - avg_right| }
    let s2 := { s1 with scan_data := s1.scan_data ++ [entry] }
    let s3 := { s2 with scan_position := s2.scan_position + s2.cfg.scan_step_units }
    (move_servo s3 s3.scan_position writeOk).2

/-- process_auto_tracking: one Auto-mode tick at monotonic time now, with
this tick's raw ADC outcomes and servo write outcome. -/
def process_auto_tracking (s : TrackerState) (now : ℚ)
    (rawL rawR : Option ℚ) (writeOk : Bool) : TrackerState :=
  if now - s.last_auto_move_time < auto_move_cooldown then
    (read_rssi s rawL rawR).2
  else
    let rd := read_rssi s rawL rawR
    let s1 := rd.2
    let difference := rd.1.1 - rd.1.2
    let abs_difference := |difference|
    if abs_difference < auto_deadband then s1
    else if abs_difference < rssi_threshold then s1
    else
      let step :=
        if abs_difference < rssi_threshold * 2 then auto_step_small
        else if abs_difference < rssi_threshold * 4 then auto_step_medium
        else auto_step_large
      let new_position :=
        if 0 < difference then s1.position - step else s1.position + step
      let mv := move_servo s1 new_position writeOk
      if mv.1 then { mv.2 with last_auto_move_time := now } else mv.2

/-- calibrate_minimum over the raw sample pairs gathered during the
uninterrupted 8-second window (raw reads bypass the buffers). -/
def calibrate_minimum (s : TrackerState) (samples : List (ℚ × ℚ)) :
    TrackerState :=
  let avg_left := listMean (samples.map Prod.fst)
  let avg_right := listMean (samples.map Prod.snd)
  { s with noise_floor_left := avg_left,
           noise_floor_right := avg_right,
           rssi_offset := avg_left - avg_right,
           current_mode := Mode.manual }

/-- calibrate_maximum over the raw ADC outcomes of its read_rssi calls. -/
def calibrate_maximum (s : TrackerState) (raws : List (Option ℚ × Option ℚ)) :
    TrackerState :=
  let rd := readRssiList s raws
  let avg_left := listMean (rd.1.map Prod.fst)
  let avg_right := listMean (rd.1.map Prod.snd)
  { rd.2 with rssi_max_left := avg_left,
              rssi_max_right := avg_right,
              current_mode := Mode.manual }

/-- get_scan_results: the empty dict (none) unless a completed scan's
results are stored. -/
def get_scan_results (s : TrackerState) : Option ScanResults :=
  match s.last_scan_results with
  | some r => if r.scan_complete then some r else none
  | none => none

/-- Control-loop iterations while in Scan mode, fuel-bounded; every tick
uses the same raw ADC outcomes and write outcome. -/
def scanTicks (raws : List (Option ℚ × Option ℚ)) (writeOk : Bool) :
    Nat → TrackerState → TrackerState
  | 0, s => s
  | fuel + 1, s =>
    if s.current_mode = Mode.scan then
      scanTicks raws writeOk fuel (process_scan s raws writeOk)
    else s

/-- VTX bands. -/
inductive Band where
  | A
  | B
  | E
  | F
  | R
  | L
deriving DecidableEq, Fintype

/-- The band enumeration order of start_vtx_scan. -/
def bandOrder : List Band := [Band.A, Band.B, Band.E, Band.F, Band.R, Band.L]

/-- The 48 cells visited by the VTX scan worker, in order: bands A,B,E,F,R,L
and channels 1..8. -/
def vtxCells : List (Band × Nat) :=
  (bandOrder.map (fun b => (List.range 8).map (fun i => (b, i + 1)))).flatten

/-- SkyzoneVTX.frequency_table: the raw 25-bit register-B frames, rows in
the source's own order. -/
def skyzoneFrequencyTable (b : Band) : List Nat :=
  match b with
  | .L => [0x4C151, 0x4C391, 0x4D1F1, 0x4E031, 0x4E291, 0x4F0D1, 0x4F331, 0x50171]
  | .R => [0x503B1, 0x51211, 0x52051, 0x522B1, 0x530F1, 0x53351, 0x54191, 0x543F1]
  | .F => [0x520D1, 0x52211, 0x52351, 0x53091, 0x531D1, 0x53311, 0x54051, 0x54191]
  | .E => [0x512B1, 0x51171, 0x51031, 0x502F1, 0x541F1, 0x54331, 0x55071, 0x551B1]
  | .B => [0x52071, 0x52191, 0x522D1, 0x523F1, 0x53131, 0x53251, 0x53391, 0x540B1]
  | .A => [0x540B1, 0x53371, 0x53231, 0x530F1, 0x523B1, 0x52271, 0x52131, 0x513F1]

/-- VtxService._get_frequency_mhz: the static frequency table in MHz (the
same table appears in the spec). -/
def frequencyMhzTable (b : Band) : List Nat :=
  match b with
  | .A => [5865, 5845, 5825, 5805, 5785, 5765, 5745, 5725]
  | .B => [5733, 5752, 5771, 5790, 5809, 5828, 5847, 5866]
  | .E => [5705, 5685, 5665, 5645, 5885, 5905, 5925, 5945]
  | .F => [5740, 5760, 5780, 5800, 5820, 5840, 5860, 5880]
  | .R => [5658, 5695, 5732, 5769, 5806, 5843, 5880, 5917]
  | .L => [5362, 5399, 5436, 5473, 5510, 5547, 5584, 5621]

/-- The register-B frame the raw-table implementation sends for band b,
channel i+1. -/
def rawRegBFrame (b : Band) (i : Fin 8) : Nat :=
  (skyzoneFrequencyTable b).getD i.val 0

/-- The frequency in MHz for band b, channel i+1. -/
def freqMhz (b : Band) (i : Fin 8) : Nat := (frequencyMhzTable b).getD i.val 0

/-- The register-B write frame built from a frequency per the spec's
formula: 20-bit payload ((f-479)/2/32)<<7 | ((f-479)/2)%32, RW bit 1,
4-bit register address 0x1, packed LSB-first as
[payload][RW][address]. -/
def specRegBFrame (f : Nat) : Nat :=
  (((((f - 479) / 2 / 32) <<< 7) ||| (((f - 479) / 2) % 32)) <<< 5) |||
    (1 <<< 4) ||| 0x1

/-- State of the VTX scan worker (the vtx_scan_* attributes plus the last
set_channel actually issued to the driver). -/
structure VtxScanSt where
  in_progress : Bool
  current : Option (Band × Nat)
  grid : Band × Nat → Option ℚ
  best : Option ((Band × Nat) × ℚ)
  lastSetChannel : Option (Band × Nat)

/-- The worker state right after start_vtx_scan resets it. -/
def initVtxScanSt : VtxScanSt where
  in_progress := true
  current := none
  grid := fun _ => none
  best := none
  lastSetChannel := none

/-- The best-cell update: replaced only on a strictly greater total. -/
def updBest (b : Option ((Band × Nat) × ℚ)) (cell : Band × Nat) (total : ℚ) :
    Option ((Band × Nat) × ℚ) :=
  match b with
  | none => some (cell, total)
  | some p => if p.2 < total then some (cell, total) else some p

/-- The worker's double loop over the cells.  setOk models whether
set_band_channel succeeds at a cell (an exception aborts the scan); rssi
gives the filtered (L, R) pair read_rssi returns at that cell, and the
recorded total is their sum (the Python or-0 guard is the identity on
numbers). -/
def vtxScanLoop (setOk : Band × Nat → Bool) (rssi : Band × Nat → ℚ × ℚ) :
    List (Band × Nat) → VtxScanSt → VtxScanSt
  | [], st => st
  | cell :: rest, st =>
    let st1 := { st with current := some cell }
    if setOk cell then
      let total := (rssi cell).1 + (rssi cell).2
      vtxScanLoop setOk rssi rest
        { st1 with lastSetChannel := some cell,
                   grid := fun c => if c = cell then some total else st1.grid c,
                   best := updBest st1.best cell total }
    else { st1 with in_progress := false }

/-- start_vtx_scan's worker run to termination: the full pass over the
cells and, if the pass was not aborted, the final switch to the best
cell. -/
def start_vtx_scan (setOk : Band × Nat → Bool) (rssi : Band × Nat → ℚ × ℚ) :
    VtxScanSt :=
  let st := vtxScanLoop setOk rssi vtxCells initVtxScanSt
  if st.in_progress then
    match st.best with
    | some p =>
      { st with lastSetChannel := if setOk p.1 then some p.1 else st.lastSetChannel,
                in_progress := false }
    | none => { st with in_progress := false }
  else st

/-- The dual fold keeping the first element attaining the maximum, as the
worker's best-cell update does over the visited cells. -/
def foldMaxBy (v : α → ℚ) (b : α) (l : List α) : α :=
  l.foldl (fun acc x => if v acc < v x then x else acc) b

/-- The commanded-position invariant of the spec. -/
abbrev commandedInRange (s : TrackerState) : Prop :=
  s.cfg.left_limit ≤ s.position ∧ s.position ≤ s.cfg.right_limit

section Preservation

theorem clampPos_ge (cfg : ServoConfig) (p : Int) :
    cfg.left_limit ≤ clampPos cfg p :=
  le_max_left _ _

theorem clampPos_le (cfg : ServoConfig) (p : Int)
    (h : cfg.left_limit ≤ cfg.right_limit) :
    clampPos cfg p ≤ cfg.right_limit :=
  max_le h (min_le_left _ _)

theorem clampPos_le_of_le (cfg : ServoConfig) (p x : Int)
    (h1 : cfg.left_limit ≤ x) (h2 : p ≤ x) : clampPos cfg p ≤ x :=
  max_le h1 (le_trans (min_le_right _ _) h2)

theorem le_clampPos_of_le (cfg : ServoConfig) (p x : Int)
    (h1 : x ≤ p) (h2 : x ≤ cfg.right_limit) : x ≤ clampPos cfg p :=
  le_trans (le_min h2 h1) (le_max_right _ _)

theorem clampPos_eq_self (cfg : ServoConfig) (p : Int)
    (h1 : cfg.left_limit ≤ p) (h2 : p ≤ cfg.right_limit) :
    clampPos cfg p = p := by
  unfold clampPos
  omega

theorem move_servo_cases (s : TrackerState) (p : Int) (w : Bool) :
    (move_servo s p w).2 = s ∨
      (move_servo s p w).2 = { s with position := clampPos s.cfg p } := by
  simp only [move_servo]
  cases w <;> split_ifs <;> simp

theorem move_servo_cfg (s : TrackerState) (p : Int) (w : Bool) :
    (move_servo s p w).2.cfg = s.cfg := by
  rcases move_servo_cases s p w with h | h <;> rw [h]

theorem move_servo_mode (s : TrackerState) (p : Int) (w : Bool) :
    (move_servo s p w).2.current_mode = s.current_mode := by
  rcases move_servo_cases s p w with h | h <;> rw [h]

theorem move_servo_scan_data (s : TrackerState) (p : Int) (w : Bool) :
    (move_servo s p w).2.scan_data = s.scan_data := by
  rcases move_servo_cases s p w with h | h <;> rw [h]

theorem move_servo_scan_position (s : TrackerState) (p : Int) (w : Bool) :
    (move_servo s p w).2.scan_position = s.scan_position := by
  rcases move_servo_cases s p w with h | h <;> rw [h]

theorem move_servo_results (s : TrackerState) (p : Int) (w : Bool) :
    (move_servo s p w).2.last_scan_results = s.last_scan_results := by
  rcases move_servo_cases s p w with h | h <;> rw [h]

theorem move_servo_changed (s : TrackerState) (p : Int) (w : Bool)
    (h : (move_servo s p w).2.position ≠ s.position) :
    (move_servo s p w).2.position = clampPos s.cfg p ∧
      2 ≤ (clampPos s.cfg p - s.position).natAbs ∧ w = true := by
  simp only [move_servo] at h ⊢
  split_ifs at h ⊢ with h1 h2
  · exact absurd rfl h
  · exact ⟨rfl, by omega, h2⟩
  · exact absurd rfl h

theorem move_servo_inRange (s : TrackerState) (p : Int) (w : Bool)
    (h : commandedInRange s) : commandedInRange (move_servo s p w).2 := by
  rcases move_servo_cases s p w with hc | hc <;> rw [hc]
  · exact h
  · exact ⟨clampPos_ge _ _, clampPos_le _ _ (le_trans h.1 h.2)⟩

theorem read_rssi_buffers_only (s : TrackerState) (a b : Option ℚ) :
    ∃ lb rb, (read_rssi s a b).2 =
      { s with left_rssi_buffer := lb, right_rssi_buffer := rb } := by
  cases a <;> cases b <;> simp only [read_rssi] <;>
    first
    | exact ⟨s.left_rssi_buffer, s.right_rssi_buffer, rfl⟩
    | (split_ifs <;> exact ⟨_, _, rfl⟩)

theorem readRssiList_buffers_only (s : TrackerState)
    (raws : List (Option ℚ × Option ℚ)) :
    ∃ lb rb, (readRssiList s raws).2 =
      { s with left_rssi_buffer := lb, right_rssi_buffer := rb } := by
  induction raws generalizing s with
  | nil => exact ⟨s.left_rssi_buffer, s.right_rssi_buffer, rfl⟩
  | cons raw rest ih =>
    obtain ⟨lb1, rb1, h1⟩ := read_rssi_buffers_only s raw.1 raw.2
    obtain ⟨lb2, rb2, h2⟩ := ih (read_rssi s raw.1 raw.2).2
    refine ⟨lb2, rb2, ?_⟩
    unfold readRssiList
    rw [h2, h1]

theorem read_rssi_position (s : TrackerState) (a b : Option ℚ) :
    (read_rssi s a b).2.position = s.position := by
  obtain ⟨lb, rb, h⟩ := read_rssi_buffers_only s a b
  rw [h]

theorem read_rssi_cfg (s : TrackerState) (a b : Option ℚ) :
    (read_rssi s a b).2.cfg = s.cfg := by
  obtain ⟨lb, rb, h⟩ := read_rssi_buffers_only s a b
  rw [h]

end Preservation

section ScanLemmas

theorem finish_scan_underfill (s : TrackerState) (w : Bool)
    (h : s.scan_data.length < 3) :
    finish_scan s w = { s with current_mode := Mode.manual } := by
  unfold finish_scan
  rw [if_pos h]

theorem finish_scan_mode (s : TrackerState) (w : Bool) :
    (finish_scan s w).current_mode = Mode.manual ∨
      (finish_scan s w).current_mode = Mode.auto := by
  unfold finish_scan
  split_ifs
  · left; rfl
  · cases minByDiff s.scan_data
    · left; rfl
    · right; rfl

theorem finish_scan_scan_data (s : TrackerState) (w : Bool) :
    (finish_scan s w).scan_data = s.scan_data := by
  unfold finish_scan
  split_ifs
  · rfl
  · cases minByDiff s.scan_data
    · rfl
    · simp only [move_servo_scan_data]

theorem finish_scan_inRange (s : TrackerState) (w : Bool)
    (h : commandedInRange s) : commandedInRange (finish_scan s w) := by
  unfold finish_scan
  split_ifs
  · exact h
  · cases minByDiff s.scan_data
    · exact h
    · exact move_servo_inRange _ _ w h

theorem process_scan_finish (s : TrackerState)
    (raws : List (Option ℚ × Option ℚ)) (w : Bool)
    (h : s.cfg.right_limit < s.scan_position) :
    process_scan s raws w = finish_scan s w := by
  unfold process_scan
  rw [if_pos h]

theorem process_scan_record (s : TrackerState)
    (raws : List (Option ℚ × Option ℚ)) (w : Bool)
    (h : ¬ s.cfg.right_limit < s.scan_position) :
    ∃ e : ScanEntry,
      (process_scan s raws w).scan_data = s.scan_data ++ [e] ∧
      e.position = s.scan_position ∧
      e.difference = |e.left_rssi - e.right_rssi| ∧
      e.total_rssi = e.left_rssi + e.right_rssi ∧
      (process_scan s raws w).scan_position =
        s.scan_position + s.cfg.scan_step_units ∧
      (process_scan s raws w).current_mode = s.current_mode ∧
      (process_scan s raws w).cfg = s.cfg := by
  obtain ⟨lb, rb, hr⟩ := readRssiList_buffers_only s raws
  simp only [process_scan]
  rw [if_neg h, hr]
  simp only [move_servo_scan_data, move_servo_scan_position,
    move_servo_mode, move_servo_cfg]
  exact ⟨_, rfl, rfl, rfl, rfl, trivial, trivial, trivial⟩

theorem process_scan_inRange (s : TrackerState)
    (raws : List (Option ℚ × Option ℚ)) (w : Bool)
    (h : commandedInRange s) : commandedInRange (process_scan s raws w) := by
  obtain ⟨lb, rb, hr⟩ := readRssiList_buffers_only s raws
  unfold process_scan
  split_ifs with h1
  · exact finish_scan_inRange s w h
  · refine move_servo_inRange _ _ w ?_
    rw [hr]
    exact h

theorem scanTicks_of_ne (raws : List (Option ℚ × Option ℚ)) (w : Bool)
    (fuel : Nat) (s : TrackerState) (h : s.current_mode ≠ Mode.scan) :
    scanTicks raws w fuel s = s := by
  cases fuel with
  | zero => rfl
  | succ n =>
    unfold scanTicks
    rw [if_neg h]

/-- The number of scan entries still to be recorded from scan position p
with the step and right limit of cfg. -/
def remainingEntries (cfg : ServoConfig) (p : Int) : Nat :=
  if cfg.right_limit < p then 0
  else ((cfg.right_limit - p) / cfg.scan_step_units + 1).toNat

theorem scanTicks_count (raws : List (Option ℚ × Option ℚ)) (w : Bool)
    (fuel : Nat) (s : TrackerState)
    (hmode : s.current_mode = Mode.scan)
    (hstep : s.cfg.scan_step_units = 33)
    (hfuel : remainingEntries s.cfg s.scan_position + 1 ≤ fuel) :
    (scanTicks raws w fuel s).scan_data.length =
      s.scan_data.length + remainingEntries s.cfg s.scan_position := by
  induction fuel generalizing s with
  | zero => omega
  | succ n ih =>
    unfold scanTicks
    rw [if_pos hmode]
    by_cases hgt : s.cfg.right_limit < s.scan_position
    · have hrem : remainingEntries s.cfg s.scan_position = 0 := by
        unfold remainingEntries
        rw [if_pos hgt]
      rw [process_scan_finish s raws w hgt]
      have hne : (finish_scan s w).current_mode ≠ Mode.scan := by
        rcases finish_scan_mode s w with hm | hm <;> rw [hm] <;> simp
      rw [scanTicks_of_ne raws w n _ hne, finish_scan_scan_data, hrem]
      omega
    · obtain ⟨e, he, _, _, _, hpos, hm, hcfg⟩ := process_scan_record s raws w hgt
      have hstep2 : (process_scan s raws w).cfg.scan_step_units = 33 := by
        rw [hcfg, hstep]
      have hrem2 : remainingEntries (process_scan s raws w).cfg
          (process_scan s raws w).scan_position + 1 =
          remainingEntries s.cfg s.scan_position := by
        rw [hcfg, hpos]
        unfold remainingEntries
        rw [hstep]
        split_ifs <;> omega
      rw [ih (process_scan s raws w) (by rw [hm, hmode]) hstep2 (by omega)]
      rw [he]
      simp only [List.length_append, List.length_cons, List.length_nil]
      omega

end ScanLemmas

section FoldLemmas

variable {α : Type}

theorem foldMinBy_mem (v : α → ℚ) (b : α) (l : List α) :
    foldMinBy v b l = b ∨ foldMinBy v b l ∈ l := by
  induction l generalizing b with
  | nil => exact Or.inl rfl
  | cons x xs ih =>
    unfold foldMinBy at ih ⊢
    simp only [List.foldl_cons]
    rcases ih (if v x < v b then x else b) with h | h
    · rw [h]
      split_ifs
      · exact Or.inr (List.mem_cons_self _ _)
      · exact Or.inl rfl
    · exact Or.inr (List.mem_cons_of_mem _ h)

theorem foldMinBy_le (v : α → ℚ) (b : α) (l : List α) :
    ∀ y ∈ b :: l, v (foldMinBy v b l) ≤ v y := by
  induction l generalizing b with
  | nil =>
    intro y hy
    rw [List.mem_singleton] at hy
    rw [hy]
    exact le_refl _
  | cons x xs ih =>
    intro y hy
    unfold foldMinBy
    simp only [List.foldl_cons]
    have hb : v (foldMinBy v (if v x < v b then x else b) xs) ≤
        v (if v x < v b then x else b) :=
      ih (if v x < v b then x else b) _ (List.mem_cons_self _ _)
    rcases List.mem_cons.mp hy with hyb | hy2
    · refine le_trans hb ?_
      rw [hyb]
      split_ifs with hc
      · exact le_of_lt hc
      · exact le_refl _
    · rcases List.mem_cons.mp hy2 with hyx | hy3
      · refine le_trans hb ?_
        rw [hyx]
        split_ifs with hc
        · exact le_refl _
        · exact le_of_not_lt hc
      · exact ih (if v x < v b then x else b) y (List.mem_cons_of_mem _ hy3)

theorem minByDiff_spec (l : List ScanEntry) (e : ScanEntry)
    (h : minByDiff l = some e) :
    e ∈ l ∧ ∀ d ∈ l, e.difference ≤ d.difference := by
  cases l with
  | nil => exact absurd h (by simp [minByDiff])
  | cons x xs =>
    unfold minByDiff at h
    have he : foldMinBy ScanEntry.difference x xs = e := by
      injection h
    constructor
    · rcases foldMinBy_mem ScanEntry.difference x xs with h2 | h2
      · rw [← he, h2]
        exact List.mem_cons_self _ _
      · rw [← he]
        exact List.mem_cons_of_mem _ h2
    · intro d hd
      rw [← he]
      exact foldMinBy_le ScanEntry.difference x xs d hd

theorem foldMaxBy_ge (v : α → ℚ) (b : α) (l : List α) :
    ∀ y ∈ b :: l, v y ≤ v (foldMaxBy v b l) := by
  induction l generalizing b with
  | nil =>
    intro y hy
    rw [List.mem_singleton] at hy
    rw [hy]
    exact le_refl _
  | cons x xs ih =>
    intro y hy
    unfold foldMaxBy
    simp only [List.foldl_cons]
    have hb : v (if v b < v x then x else b) ≤
        v (foldMaxBy v (if v b < v x then x else b) xs) :=
      ih (if v b < v x then x else b) _ (List.mem_cons_self _ _)
    rcases List.mem_cons.mp hy with hyb | hy2
    · refine le_trans ?_ hb
      rw [hyb]
      split_ifs with hc
      · exact le_of_lt hc
      · exact le_refl _
    · rcases List.mem_cons.mp hy2 with hyx | hy3
      · refine le_trans ?_ hb
        rw [hyx]
        split_ifs with hc
        · exact le_refl _
        · exact le_of_not_lt hc
      · exact ih (if v b < v x then x else b) y (List.mem_cons_of_mem _ hy3)

theorem foldMaxBy_cons (v : α → ℚ) (b x : α) (xs : List α) :
    foldMaxBy v b (x :: xs) = foldMaxBy v (if v b < v x then x else b) xs :=
  rfl

theorem foldMaxBy_first (v : α → ℚ) (b : α) (l : List α) :
    ∃ pre post, b :: l = pre ++ foldMaxBy v b l :: post ∧
      ∀ y ∈ pre, v y < v (foldMaxBy v b l) := by
  induction l generalizing b with
  | nil =>
    exact ⟨[], [], rfl, by intro y hy; exact absurd hy (List.not_mem_nil y)⟩
  | cons x xs ih =>
    rw [foldMaxBy_cons]
    by_cases hc : v b < v x
    · rw [if_pos hc]
      obtain ⟨pre1, post1, hsplit, hlt⟩ := ih x
      refine ⟨b :: pre1, post1, by rw [List.cons_append, ← hsplit], ?_⟩
      intro y hy
      rcases List.mem_cons.mp hy with hyb | hy1
      · rw [hyb]
        refine lt_of_lt_of_le hc ?_
        exact foldMaxBy_ge v x xs x (List.mem_cons_self _ _)
      · exact hlt y hy1
    · rw [if_neg hc]
      obtain ⟨pre1, post1, hsplit, hlt⟩ := ih b
      cases pre1 with
      | nil =>
        simp only [List.nil_append] at hsplit
        have hfold : foldMaxBy v b xs = b := by
          injection hsplit with h1 h2
          exact h1.symm
        refine ⟨[], x :: xs, ?_, by intro y hy; exact absurd hy (List.not_mem_nil y)⟩
        rw [List.nil_append, hfold]
      | cons p ps =>
        rw [List.cons_append] at hsplit
        injection hsplit with h1 h2
        refine ⟨b :: x :: ps, post1, ?_, ?_⟩
        · rw [List.cons_append, List.cons_append, ← h2]
        · intro y hy
          have hblt : v b < v (foldMaxBy v b xs) := by
            have hvb : v b = v p := congrArg v h1
            rw [hvb]
            exact hlt p (List.mem_cons_self _ _)
          rcases List.mem_cons.mp hy with hyb | hy1
          · rw [hyb]
            exact hblt
          · rcases List.mem_cons.mp hy1 with hyx | hy2
            · rw [hyx]
              exact lt_of_le_of_lt (le_of_not_lt hc) hblt
            · exact hlt y (List.mem_cons_of_mem _ hy2)

end FoldLemmas

section VtxLemmas

/-- The summed total recorded at a cell. -/
def cellTotal (rssi : Band × Nat → ℚ × ℚ) (c : Band × Nat) : ℚ :=
  (rssi c).1 + (rssi c).2

theorem vtxScanLoop_ok_in_progress (setOk : Band × Nat → Bool)
    (rssi : Band × Nat → ℚ × ℚ) (hok : ∀ c, setOk c = true)
    (l : List (Band × Nat)) (st : VtxScanSt) :
    (vtxScanLoop setOk rssi l st).in_progress = st.in_progress := by
  induction l generalizing st with
  | nil => rfl
  | cons cell rest ih =>
    unfold vtxScanLoop
    rw [if_pos (hok cell)]
    exact ih _

theorem vtxScanLoop_ok_best (setOk : Band × Nat → Bool)
    (rssi : Band × Nat → ℚ × ℚ) (hok : ∀ c, setOk c = true)
    (l : List (Band × Nat)) :
    ∀ (st : VtxScanSt) (c0 : Band × Nat),
      st.best = some (c0, cellTotal rssi c0) →
      (vtxScanLoop setOk rssi l st).best =
        some (foldMaxBy (cellTotal rssi) c0 l,
          cellTotal rssi (foldMaxBy (cellTotal rssi) c0 l)) := by
  induction l with
  | nil =>
    intro st c0 h
    exact h
  | cons cell rest ih =>
    intro st c0 h
    unfold vtxScanLoop
    rw [if_pos (hok cell), foldMaxBy_cons]
    apply ih
    show updBest st.best cell (cellTotal rssi cell) = _
    rw [h]
    simp only [updBest]
    split_ifs <;> rfl

theorem vtxScanLoop_ok_best_none (setOk : Band × Nat → Bool)
    (rssi : Band × Nat → ℚ × ℚ) (hok : ∀ c, setOk c = true)
    (c0 : Band × Nat) (rest : List (Band × Nat)) (st : VtxScanSt)
    (h : st.best = none) :
    (vtxScanLoop setOk rssi (c0 :: rest) st).best =
      some (foldMaxBy (cellTotal rssi) c0 rest,
        cellTotal rssi (foldMaxBy (cellTotal rssi) c0 rest)) := by
  unfold vtxScanLoop
  rw [if_pos (hok c0)]
  apply vtxScanLoop_ok_best setOk rssi hok
  show updBest st.best c0 (cellTotal rssi c0) = _
  rw [h]
  rfl

theorem vtxScanLoop_ok_grid (setOk : Band × Nat → Bool)
    (rssi : Band × Nat → ℚ × ℚ) (hok : ∀ c, setOk c = true)
    (l : List (Band × Nat)) :
    ∀ (st : VtxScanSt) (c : Band × Nat),
      (vtxScanLoop setOk rssi l st).grid c =
        if c ∈ l then some (cellTotal rssi c) else st.grid c := by
  induction l with
  | nil =>
    intro st c
    simp only [List.not_mem_nil, if_false]
    rfl
  | cons cell rest ih =>
    intro st c
    unfold vtxScanLoop
    rw [if_pos (hok cell), ih]
    by_cases h1 : c ∈ rest
    · rw [if_pos h1, if_pos (List.mem_cons_of_mem _ h1)]
    · rw [if_neg h1]
      show (if c = cell then some (cellTotal rssi cell) else st.grid c) = _
      by_cases h2 : c = cell
      · rw [if_pos h2, if_pos (by rw [h2]; exact List.mem_cons_self _ _), h2]
      · rw [if_neg h2, if_neg ?_]
        intro hmem
        rcases List.mem_cons.mp hmem with h3 | h3
        · exact h2 h3
        · exact h1 h3

end VtxLemmas

section CommandAutoLemmas

theorem process_auto_shape (s : TrackerState) (now : ℚ) (a b : Option ℚ)
    (w : Bool) :
    process_auto_tracking s now a b w = (read_rssi s a b).2 ∨
    ∃ p, process_auto_tracking s now a b w =
        (move_servo (read_rssi s a b).2 p w).2 ∨
      process_auto_tracking s now a b w =
        { (move_servo (read_rssi s a b).2 p w).2 with
            last_auto_move_time := now } := by
  simp only [process_auto_tracking]
  split_ifs <;>
    first
    | exact Or.inl rfl
    | exact Or.inr ⟨_, Or.inl rfl⟩
    | exact Or.inr ⟨_, Or.inr rfl⟩

theorem process_auto_inRange (s : TrackerState) (now : ℚ) (a b : Option ℚ)
    (w : Bool) (h : commandedInRange s) :
    commandedInRange (process_auto_tracking s now a b w) := by
  obtain ⟨lb, rb, hr⟩ := read_rssi_buffers_only s a b
  have hr2 : commandedInRange (read_rssi s a b).2 := by
    rw [hr]
    exact h
  rcases process_auto_shape s now a b w with h1 | ⟨p, h1 | h1⟩ <;> rw [h1]
  · exact hr2
  · exact move_servo_inRange _ p w hr2
  · exact move_servo_inRange _ p w hr2

theorem process_command_inRange (s : TrackerState) (cmd : Command)
    (rp : Option Int) (w : Bool)
    (h1 : cmd ≠ Command.set_left_limit) (h2 : cmd ≠ Command.set_right_limit)
    (h : commandedInRange s) :
    commandedInRange (process_command s cmd rp w).2 := by
  cases cmd with
  | left => exact move_servo_inRange _ _ w h
  | right => exact move_servo_inRange _ _ w h
  | home => exact move_servo_inRange _ _ w h
  | set_angle a => exact move_servo_inRange _ _ w h
  | set_center => cases rp <;> exact h
  | set_left_limit => exact absurd rfl h1
  | set_right_limit => exact absurd rfl h2
  | auto => exact h
  | manual => exact h
  | scan =>
    simp only [process_command]
    split_ifs
    · exact move_servo_inRange _ _ w h
    · exact h
  | calibrate =>
    simp only [process_command]
    split_ifs <;> exact h
  | calibrate_max =>
    simp only [process_command]
    split_ifs <;> exact h
  | unknown => exact h

theorem calibrate_minimum_inRange (s : TrackerState) (samples : List (ℚ × ℚ))
    (h : commandedInRange s) :
    commandedInRange (calibrate_minimum s samples) :=
  h

theorem calibrate_maximum_inRange (s : TrackerState)
    (raws : List (Option ℚ × Option ℚ)) (h : commandedInRange s) :
    commandedInRange (calibrate_maximum s raws) := by
  obtain ⟨lb, rb, hr⟩ := readRssiList_buffers_only s raws
  simp only [calibrate_maximum]
  rw [hr]
  exact h

end CommandAutoLemmas

/-- C1 (corrected by the counterexample below): every servo move and every
control-loop tick in every mode preserves the commanded-position invariant,
and so does every command other than set_left_limit and set_right_limit;
those two commands, however, only overwrite the limit and never re-clamp
the commanded position. -/
theorem commanded_in_range_preserved :
    (∀ (s : TrackerState) (p : Int) (w : Bool), commandedInRange s →
      commandedInRange (move_servo s p w).2) ∧
    (∀ (s : TrackerState) (cmd : Command) (rp : Option Int) (w : Bool),
      cmd ≠ Command.set_left_limit → cmd ≠ Command.set_right_limit →
      commandedInRange s → commandedInRange (process_command s cmd rp w).2) ∧
    (∀ (s : TrackerState) (raws : List (Option ℚ × Option ℚ)) (w : Bool),
      commandedInRange s → commandedInRange (process_scan s raws w)) ∧
    (∀ (s : TrackerState) (now : ℚ) (a b : Option ℚ) (w : Bool),
      commandedInRange s → commandedInRange (process_auto_tracking s now a b w)) ∧
    (∀ (s : TrackerState) (samples : List (ℚ × ℚ)),
      commandedInRange s → commandedInRange (calibrate_minimum s samples)) ∧
    (∀ (s : TrackerState) (raws : List (Option ℚ × Option ℚ)),
      commandedInRange s → commandedInRange (calibrate_maximum s raws)) :=
  ⟨move_servo_inRange,
   process_command_inRange,
   process_scan_inRange,
   process_auto_inRange,
   calibrate_minimum_inRange,
   calibrate_maximum_inRange⟩

/-- C1 witness: concrete instances of each preserved conjunct. -/
theorem commanded_in_range_preserved_witness :
    commandedInRange (move_servo initState 5000 true).2 ∧
    commandedInRange (process_command initState Command.home (some 0) true).2 ∧
    commandedInRange (process_scan initState [] true) ∧
    commandedInRange (process_auto_tracking initState 1 (some 9000) (some 0) true) ∧
    commandedInRange (calibrate_minimum initState []) ∧
    commandedInRange (calibrate_maximum initState []) :=
  ⟨commanded_in_range_preserved.1 initState 5000 true (by decide),
   commanded_in_range_preserved.2.1 initState Command.home (some 0) true
     (by decide) (by decide) (by decide),
   commanded_in_range_preserved.2.2.1 initState [] true (by decide),
   commanded_in_range_preserved.2.2.2.1 initState 1 (some 9000) (some 0) true
     (by decide),
   commanded_in_range_preserved.2.2.2.2.1 initState [] (by decide),
   commanded_in_range_preserved.2.2.2.2.2 initState [] (by decide)⟩

/-- C1 counterexample: from a state commanded at 1100 with limits
[1100, 2700], a set_left_limit command whose servo read-back returns 1500
narrows the range to [1500, 2700] while the commanded position stays at
1100, so the invariant is violated immediately after the command. -/
theorem set_left_limit_breaks_commanded_range :
    ¬ commandedInRange
      (process_command { initState with position := 1100 }
        Command.set_left_limit (some 1500) true).2 := by
  decide

/-- C6 (corrected): processing set_center from Auto mode leaves the tracker
in Auto mode, not Manual. -/
theorem set_center_keeps_auto_mode :
    (process_command { initState with current_mode := Mode.auto }
      Command.set_center (some 2047) true).2.current_mode = Mode.auto ∧
    Mode.auto ≠ Mode.manual := by
  decide

/-- C6 (amended): the commands set_center, set_left_limit and
set_right_limit capture the servo position but never change the mode; the
tracker stays in whatever mode it was in. -/
theorem limit_capture_commands_keep_mode (s : TrackerState)
    (rp : Option Int) (w : Bool) :
    (process_command s Command.set_center rp w).2.current_mode =
      s.current_mode ∧
    (process_command s Command.set_left_limit rp w).2.current_mode =
      s.current_mode ∧
    (process_command s Command.set_right_limit rp w).2.current_mode =
      s.current_mode := by
  refine ⟨?_, ?_, ?_⟩ <;> cases rp <;> rfl

/-- C10: read_rssi is total: its calibration fields (noise floors and
rssi_offset) are untouched on every path, and when either raw ADC read
fails it returns the (0, 0) pair with the whole state, buffers included,
unchanged; no last-good value is substituted. -/
theorem read_rssi_total (s : TrackerState) (a b : Option ℚ) :
    ((read_rssi s a b).2.noise_floor_left = s.noise_floor_left ∧
     (read_rssi s a b).2.noise_floor_right = s.noise_floor_right ∧
     (read_rssi s a b).2.rssi_offset = s.rssi_offset) ∧
    (a = none ∨ b = none → read_rssi s a b = ((0, 0), s)) := by
  constructor
  · obtain ⟨lb, rb, hr⟩ := read_rssi_buffers_only s a b
    rw [hr]
    exact ⟨rfl, rfl, rfl⟩
  · intro h
    cases a with
    | none => cases b <;> rfl
    | some x =>
      cases b with
      | none => rfl
      | some y => rcases h with h1 | h1 <;> exact Option.noConfusion h1

/-- C10 witness: a failed left ADC read at the initial state. -/
theorem read_rssi_total_witness :
    (((read_rssi initState none (some 3)).2.noise_floor_left =
        initState.noise_floor_left ∧
      (read_rssi initState none (some 3)).2.noise_floor_right =
        initState.noise_floor_right ∧
      (read_rssi initState none (some 3)).2.rssi_offset =
        initState.rssi_offset) ∧
     read_rssi initState none (some 3) = ((0, 0), initState)) :=
  ⟨(read_rssi_total initState none (some 3)).1,
   (read_rssi_total initState none (some 3)).2 (Or.inl rfl)⟩

/-- The raw ADC outcomes of one scan step in which all five reads
succeed. -/
def okRaws5 : List (Option ℚ × Option ℚ) := List.replicate 5 (some 0, some 0)

/-- An angular scan run over the narrowed range [2680, 2700]: it collects
a single sample and terminates underfilled. -/
def underfilledScanRun : TrackerState :=
  scanTicks okRaws5 true 10
    (start_scan { initState with cfg := { left_limit := 2680 } } true)

/-- C7 counterexample: an underfilled scan (1 sample over the range
[2680, 2700]) falls back to Manual, but the published scan results are the
empty dict: no partial scan_data is retained there and nothing is marked
scan_complete = false; the partial data stays only in the internal
scan_data attribute. -/
theorem underfilled_scan_publishes_nothing :
    underfilledScanRun.current_mode = Mode.manual ∧
    underfilledScanRun.scan_data.length = 1 ∧
    get_scan_results underfilledScanRun = none := by
  with_unfolding_all decide

/-- C7 (amended): an underfilled finish_scan flips the mode to Manual and
nothing else: the partial samples stay in the internal scan_data field,
last_scan_results keeps the empty value set at scan start, and
get_scan_results publishes the empty result. -/
theorem underfilled_scan_amended (s : TrackerState) (w : Bool)
    (h : s.scan_data.length < 3) :
    (finish_scan s w).scan_data = s.scan_data ∧
    (finish_scan s w).last_scan_results = s.last_scan_results ∧
    (finish_scan s w).current_mode = Mode.manual ∧
    (s.last_scan_results = none → get_scan_results (finish_scan s w) = none) := by
  rw [finish_scan_underfill s w h]
  refine ⟨rfl, rfl, rfl, ?_⟩
  intro h2
  have h3 : ({ s with current_mode := Mode.manual } :
      TrackerState).last_scan_results = none := h2
  unfold get_scan_results
  rw [h3]

/-- A concrete recorded sample used by witnesses. -/
def entryW : ScanEntry where
  position := 1100
  angle := 0
  left_rssi := 5
  right_rssi := 9
  total_rssi := 14
  difference := 4

/-- C7 witness: the amended behaviour at a concrete one-sample state. -/
theorem underfilled_scan_amended_witness :
    (finish_scan { initState with scan_data := [entryW] } true).scan_data =
      [entryW] ∧
    (finish_scan { initState with scan_data := [entryW] } true).last_scan_results =
      ({ initState with scan_data := [entryW] } : TrackerState).last_scan_results ∧
    (finish_scan { initState with scan_data := [entryW] } true).current_mode =
      Mode.manual ∧
    get_scan_results (finish_scan { initState with scan_data := [entryW] } true) =
      none :=
  have h := underfilled_scan_amended { initState with scan_data := [entryW] }
    true (by decide)
  ⟨h.1, h.2.1, h.2.2.1, h.2.2.2 rfl⟩

/-- C8 counterexample: the uninterrupted default scan with succeeding
reads and writes records 49 entries in scan_data, while the claim's
formula ⌈(2700−1100)/33⌉+1 evaluates to 50. -/
theorem scan_entry_count_not_ceil :
    (scanTicks okRaws5 true 51 (start_scan initState true)).scan_data.length = 49 ∧
    (⌈((2700 : ℚ) - 1100) / 33⌉ + 1 : ℤ) = 50 ∧ (49 : ℤ) ≠ 50 := by
  refine ⟨?_, ?_, by decide⟩
  · have hmode : (start_scan initState true).current_mode = Mode.scan := by
      simp only [start_scan, move_servo_mode]
    have hcfg : (start_scan initState true).cfg = initState.cfg := by
      simp only [start_scan, move_servo_cfg]
    have hpos : (start_scan initState true).scan_position = 1100 := by
      simp only [start_scan, move_servo_scan_position]
      rfl
    have hdata : (start_scan initState true).scan_data = [] := by
      simp only [start_scan, move_servo_scan_data]
    have hstep : (start_scan initState true).cfg.scan_step_units = 33 := by
      rw [hcfg]
      rfl
    have hrem : remainingEntries (start_scan initState true).cfg
        (start_scan initState true).scan_position = 49 := by
      rw [hcfg, hpos]
      decide
    rw [scanTicks_count _ _ _ _ hmode hstep (by rw [hrem]; decide), hdata, hrem]
    decide
  · with_unfolding_all decide

/-- C8 (amended): the uninterrupted default scan records exactly
⌊(2700−1100)/33⌋+1 = 49 entries: the count is one more than the floor of
span/step, not the ceiling. -/
theorem scan_entry_count_floor :
    (scanTicks okRaws5 true 51 (start_scan initState true)).scan_data.length =
      ((2700 - 1100) / 33 + 1 : ℤ).toNat := by
  have hmode : (start_scan initState true).current_mode = Mode.scan := by
    simp only [start_scan, move_servo_mode]
  have hcfg : (start_scan initState true).cfg = initState.cfg := by
    simp only [start_scan, move_servo_cfg]
  have hpos : (start_scan initState true).scan_position = 1100 := by
    simp only [start_scan, move_servo_scan_position]
    rfl
  have hdata : (start_scan initState true).scan_data = [] := by
    simp only [start_scan, move_servo_scan_data]
  have hstep : (start_scan initState true).cfg.scan_step_units = 33 := by
    rw [hcfg]
    rfl
  have hrem : remainingEntries (start_scan initState true).cfg
      (start_scan initState true).scan_position = 49 := by
    rw [hcfg, hpos]
    decide
  rw [scanTicks_count _ _ _ _ hmode hstep (by rw [hrem]; decide), hdata, hrem]
  decide

/-- Further concrete recorded samples used by witnesses. -/
def entryB : ScanEntry where
  position := 2000
  angle := 0
  left_rssi := 7
  right_rssi := 6
  total_rssi := 13
  difference := 1

def entryC : ScanEntry where
  position := 2600
  angle := 0
  left_rssi := 0
  right_rssi := 9
  total_rssi := 9
  difference := 9

/-- A completed-scan state with three recorded samples. -/
def scanW : TrackerState :=
  { initState with scan_data := [entryW, entryB, entryC], position := 2700 }

/-- C2: when an angular scan completes with at least 3 recorded entries
whose difference fields are the recorded |L − R| and the post-scan write
succeeds, finish_scan selects an entry of scan_data minimizing |L − R|,
publishes it as best_position with scan_complete set, moves the commanded
position to that entry's position (the move is in range and not
micro-suppressed unless already there) and switches to Auto; with fewer
than 3 entries it aborts to Manual changing nothing else, in particular
without a post-scan move. -/
theorem finish_scan_selects_min_difference (s : TrackerState)
    (best : ScanEntry)
    (hb : minByDiff s.scan_data = some best)
    (h3 : 3 ≤ s.scan_data.length)
    (hdiff : ∀ e ∈ s.scan_data, e.difference = |e.left_rssi - e.right_rssi|)
    (hlo : s.cfg.left_limit ≤ best.position)
    (hhi : best.position ≤ s.cfg.right_limit)
    (hmv : best.position = s.position ∨
      2 ≤ (best.position - s.position).natAbs) :
    (finish_scan s true).current_mode = Mode.auto ∧
    (finish_scan s true).position = best.position ∧
    best ∈ s.scan_data ∧
    (∀ e ∈ s.scan_data,
      |best.left_rssi - best.right_rssi| ≤ |e.left_rssi - e.right_rssi|) ∧
    (∃ res, (finish_scan s true).last_scan_results = some res ∧
      res.best_position = best.position ∧ res.scan_complete = true) ∧
    (∀ (s2 : TrackerState) (w : Bool), s2.scan_data.length < 3 →
      finish_scan s2 w = { s2 with current_mode := Mode.manual }) := by
  have hnl : ¬ s.scan_data.length < 3 := by omega
  obtain ⟨hmem, hle⟩ := minByDiff_spec s.scan_data best hb
  have hclamp : clampPos s.cfg best.position = best.position :=
    clampPos_eq_self _ _ hlo hhi
  unfold finish_scan
  rw [if_neg hnl, hb]
  refine ⟨rfl, ?_, hmem, ?_, ⟨_, by rw [move_servo_results], rfl, rfl⟩,
    fun s2 w h => finish_scan_underfill s2 w h⟩
  · show (move_servo _ best.position true).2.position = best.position
    simp only [move_servo]
    rw [hclamp]
    split_ifs with h1
    · rcases hmv with h2 | h2
      · exact h2.symm
      · omega
    · rfl
  · intro e he
    have h1 := hle e he
    rw [hdiff e he, hdiff best hmem] at h1
    exact h1

set_option maxRecDepth 8000 in
/-- C2 witness: a three-sample scan whose middle entry has the least
difference. -/
theorem finish_scan_selects_min_difference_witness :
    (finish_scan scanW true).current_mode = Mode.auto ∧
    (finish_scan scanW true).position = entryB.position ∧
    entryB ∈ scanW.scan_data ∧
    (∀ e ∈ scanW.scan_data,
      |entryB.left_rssi - entryB.right_rssi| ≤ |e.left_rssi - e.right_rssi|) ∧
    (∃ res, (finish_scan scanW true).last_scan_results = some res ∧
      res.best_position = entryB.position ∧ res.scan_complete = true) ∧
    (∀ (s2 : TrackerState) (w : Bool), s2.scan_data.length < 3 →
      finish_scan s2 w = { s2 with current_mode := Mode.manual }) :=
  finish_scan_selects_min_difference scanW entryB
    (by with_unfolding_all decide) (by decide)
    (by with_unfolding_all decide) (by decide) (by decide)
    (Or.inr (by decide))

theorem time_update_position (t : TrackerState) (q : ℚ) :
    ({ t with last_auto_move_time := q } : TrackerState).position =
      t.position :=
  rfl

set_option maxHeartbeats 1000000 in
theorem process_auto_position (s : TrackerState) (now : ℚ) (a b : Option ℚ)
    (w : Bool) :
    (process_auto_tracking s now a b w).position = s.position ∨
    ∃ st : Int, 0 < st ∧
      ((0 < (read_rssi s a b).1.1 - (read_rssi s a b).1.2 ∧
        (process_auto_tracking s now a b w).position =
          clampPos s.cfg (s.position - st)) ∨
       ((read_rssi s a b).1.1 - (read_rssi s a b).1.2 ≤ 0 ∧
        (process_auto_tracking s now a b w).position =
          clampPos s.cfg (s.position + st))) := by
  have hx := read_rssi_position s a b
  have hc := read_rssi_cfg s a b
  simp only [process_auto_tracking]
  split_ifs <;> (try exact Or.inl hx) <;>
    (try simp only [time_update_position]) <;>
    (rcases move_servo_cases ((read_rssi s a b).2) _ w with hcs | hcs <;>
      rw [hcs] <;>
      first
      | exact Or.inl hx
      | (rw [hc, hx]
         first
         | exact Or.inr ⟨auto_step_small, by decide,
             Or.inl ⟨by assumption, rfl⟩⟩
         | exact Or.inr ⟨auto_step_medium, by decide,
             Or.inl ⟨by assumption, rfl⟩⟩
         | exact Or.inr ⟨auto_step_large, by decide,
             Or.inl ⟨by assumption, rfl⟩⟩
         | exact Or.inr ⟨auto_step_small, by decide,
             Or.inr ⟨le_of_not_lt (by assumption), rfl⟩⟩
         | exact Or.inr ⟨auto_step_medium, by decide,
             Or.inr ⟨le_of_not_lt (by assumption), rfl⟩⟩
         | exact Or.inr ⟨auto_step_large, by decide,
             Or.inr ⟨le_of_not_lt (by assumption), rfl⟩⟩))

/-- C5: in Auto mode, whenever the tick actually changes the commanded
position (that is, a servo write was issued and not suppressed), the new
commanded position is strictly smaller than the previous one when the
filtered difference L − R is positive, and strictly larger when it is
negative. -/
theorem auto_move_direction_sign (s : TrackerState) (now : ℚ)
    (a b : Option ℚ) (w : Bool) (l r : ℚ)
    (hread : (read_rssi s a b).1 = (l, r))
    (hin : commandedInRange s)
    (hmoved : (process_auto_tracking s now a b w).position ≠ s.position) :
    (0 < l - r → (process_auto_tracking s now a b w).position < s.position) ∧
    (l - r < 0 → s.position < (process_auto_tracking s now a b w).position) := by
  have hl1 : (read_rssi s a b).1.1 = l := by rw [hread]
  have hl2 : (read_rssi s a b).1.2 = r := by rw [hread]
  rcases process_auto_position s now a b w with hp | ⟨st, hst, hcase⟩
  · exact absurd hp hmoved
  · rcases hcase with ⟨hsign, hp⟩ | ⟨hsign, hp⟩ <;> rw [hl1, hl2] at hsign
    · constructor
      · intro hlr
        rw [hp]
        refine lt_of_le_of_ne
          (clampPos_le_of_le s.cfg _ s.position hin.1 (by omega)) ?_
        exact fun he => hmoved (hp.trans he)
      · intro hlr
        exact absurd hsign (by linarith)
    · constructor
      · intro hlr
        exact absurd hlr (by linarith)
      · intro hlr
        rw [hp]
        refine lt_of_le_of_ne
          (le_clampPos_of_le s.cfg _ s.position (by omega) hin.2) ?_
        exact fun he => hmoved (hp.trans he.symm)

set_option maxRecDepth 4000 in
/-- C5 witness: at the initial state (rssi_offset −600), two raw reads of
0 filter to (0, −600), a positive difference of 600, and the tick moves
the commanded position from 2047 down to 2003. -/
theorem auto_move_direction_sign_witness :
    (0 < (0 : ℚ) - (-600) →
      (process_auto_tracking initState 1 (some 0) (some 0) true).position <
        initState.position) ∧
    ((0 : ℚ) - (-600) < 0 →
      initState.position <
        (process_auto_tracking initState 1 (some 0) (some 0) true).position) :=
  auto_move_direction_sign initState 1 (some 0) (some 0) true 0 (-600)
    (by with_unfolding_all decide) (by decide) (by with_unfolding_all decide)

/-- C4: an error-free VTX scan (set_channel succeeds at every cell) fills
every grid cell with the summed L+R read there, ends with in_progress
false, its best entry carries the maximum total over the 48 cells with
ties broken in favour of the first cell encountered in band order
[A,B,E,F,R,L] × channel 1..8, and the driver is finally commanded to the
best cell's band and channel. -/
theorem vtx_scan_best_first_max (setOk : Band × Nat → Bool)
    (rssi : Band × Nat → ℚ × ℚ) (hok : ∀ c, setOk c = true) :
    ∃ bc : Band × Nat,
      (start_vtx_scan setOk rssi).best = some (bc, cellTotal rssi bc) ∧
      bc ∈ vtxCells ∧
      (∀ c ∈ vtxCells, cellTotal rssi c ≤ cellTotal rssi bc) ∧
      (∃ pre post, vtxCells = pre ++ bc :: post ∧
        ∀ c ∈ pre, cellTotal rssi c < cellTotal rssi bc) ∧
      (start_vtx_scan setOk rssi).lastSetChannel = some bc ∧
      (start_vtx_scan setOk rssi).in_progress = false ∧
      (∀ c ∈ vtxCells,
        (start_vtx_scan setOk rssi).grid c = some (cellTotal rssi c)) := by
  have hv : vtxCells = ((Band.A, 1) : Band × Nat) :: vtxCells.tail := rfl
  set bc := foldMaxBy (cellTotal rssi) ((Band.A, 1) : Band × Nat)
    vtxCells.tail with hbc
  have hloopbest : (vtxScanLoop setOk rssi vtxCells initVtxScanSt).best =
      some (bc, cellTotal rssi bc) := by
    rw [hv]
    exact vtxScanLoop_ok_best_none setOk rssi hok _ _ _ rfl
  have hprog : (vtxScanLoop setOk rssi vtxCells initVtxScanSt).in_progress =
      true :=
    (vtxScanLoop_ok_in_progress setOk rssi hok vtxCells initVtxScanSt).trans rfl
  have hgrid : ∀ c ∈ vtxCells,
      (vtxScanLoop setOk rssi vtxCells initVtxScanSt).grid c =
        some (cellTotal rssi c) := by
    intro c hcin
    rw [vtxScanLoop_ok_grid setOk rssi hok vtxCells initVtxScanSt c,
      if_pos hcin]
  have hfinal : start_vtx_scan setOk rssi =
      { vtxScanLoop setOk rssi vtxCells initVtxScanSt with
          lastSetChannel := some bc, in_progress := false } := by
    simp only [start_vtx_scan, hprog, eq_self_iff_true, if_true, hloopbest,
      hok]
  obtain ⟨pre1, post1, hsplit, hlt⟩ :=
    foldMaxBy_first (cellTotal rssi) ((Band.A, 1) : Band × Nat) vtxCells.tail
  refine ⟨bc, ?_, ?_, ?_, ?_, ?_, ?_, ?_⟩
  · rw [hfinal]
    exact hloopbest
  · rw [hv, hsplit]
    exact List.mem_append.mpr (Or.inr (List.mem_cons_self _ _))
  · intro c hcin
    exact foldMaxBy_ge (cellTotal rssi) _ _ c (hv ▸ hcin)
  · exact ⟨pre1, post1, hv.trans hsplit, hlt⟩
  · rw [hfinal]
  · rw [hfinal]
  · intro c hcin
    rw [hfinal]
    exact hgrid c hcin

/-- C4 witness: the error-free scan with a constant zero RSSI field. -/
theorem vtx_scan_best_first_max_witness :
    ∃ bc : Band × Nat,
      (start_vtx_scan (fun _ => true) (fun _ => ((0 : ℚ), (0 : ℚ)))).best =
        some (bc, cellTotal (fun _ => ((0 : ℚ), (0 : ℚ))) bc) ∧
      bc ∈ vtxCells ∧
      (∀ c ∈ vtxCells, cellTotal (fun _ => ((0 : ℚ), (0 : ℚ))) c ≤
        cellTotal (fun _ => ((0 : ℚ), (0 : ℚ))) bc) ∧
      (∃ pre post, vtxCells = pre ++ bc :: post ∧
        ∀ c ∈ pre, cellTotal (fun _ => ((0 : ℚ), (0 : ℚ))) c <
          cellTotal (fun _ => ((0 : ℚ), (0 : ℚ))) bc) ∧
      (start_vtx_scan (fun _ => true)
        (fun _ => ((0 : ℚ), (0 : ℚ)))).lastSetChannel = some bc ∧
      (start_vtx_scan (fun _ => true)
        (fun _ => ((0 : ℚ), (0 : ℚ)))).in_progress = false ∧
      (∀ c ∈ vtxCells,
        (start_vtx_scan (fun _ => true) (fun _ => ((0 : ℚ), (0 : ℚ)))).grid c =
          some (cellTotal (fun _ => ((0 : ℚ), (0 : ℚ))) c)) :=
  vtx_scan_best_first_max (fun _ => true) (fun _ => ((0 : ℚ), (0 : ℚ)))
    (fun _ => rfl)

/-- C3 counterexample: at band L channel 1, the raw-table frame 0x4C151
differs from the frame the spec formula produces for the table frequency
5362 MHz (0x4C131). -/
theorem regB_raw_table_mismatch_L1 :
    rawRegBFrame Band.L (0 : Fin 8) ≠
      specRegBFrame (freqMhz Band.L (0 : Fin 8)) := by
  decide

/-- C3 (amended): for every band and channel the raw-table register-B
frame equals the spec-formula frame, except on band L channels 1, 3, 5
and 7 (even Fin index), where the raw frame is the spec-formula frame of
the frequency one MHz above the table value (those four L frequencies are
odd offsets from 479 and the raw table rounds (f−479)/2 up, the formula
down). -/
theorem regB_raw_table_equiv_amended :
    ∀ (b : Band) (i : Fin 8),
      rawRegBFrame b i =
        specRegBFrame (freqMhz b i +
          (if b = Band.L ∧ i.val % 2 = 0 then 1 else 0)) := by
  decide

/-- C9: for every integer servo position p in the default legal range
[1100, 2700], composing position_to_angle (which rounds to 0.1 degree)
with angle_to_position (which truncates to int) returns a position within
one unit of p. -/
theorem angle_roundtrip_within_one (p : Int)
    (h1 : 1100 ≤ p) (h2 : p ≤ 2700) :
    (angle_to_position {} (position_to_angle {} p) - p).natAbs ≤ 1 := by
  have hp1 : (1100 : ℚ) ≤ (p : ℚ) := by exact_mod_cast h1
  have hp2 : (p : ℚ) ≤ 2700 := by exact_mod_cast h2
  have harg : ((((p : ℚ)) - ((1100 : ℤ) : ℚ)) /
      (((2700 : ℤ) : ℚ) - ((1100 : ℤ) : ℚ)) * 146) * 10 =
      ((p : ℚ) - 1100) * 73 / 80 := by
    push_cast
    ring
  have hPA : position_to_angle {} p =
      ((round (((p : ℚ) - 1100) * 73 / 80) : ℤ) : ℚ) / 10 := by
    simp only [position_to_angle, roundTenth]
    rw [harg]
  have hq0 : 0 ≤ ((p : ℚ) - 1100) * 73 / 80 := by
    have h3 : (0 : ℚ) ≤ (p : ℚ) - 1100 := by linarith
    positivity
  have hq1 : ((p : ℚ) - 1100) * 73 / 80 ≤ 1460 := by
    rw [div_le_iff₀ (by norm_num : (0 : ℚ) < 80)]
    linarith
  have habs : |((round (((p : ℚ) - 1100) * 73 / 80) : ℤ) : ℚ) -
      ((p : ℚ) - 1100) * 73 / 80| ≤ 1 / 2 := by
    rw [abs_sub_comm]
    exact abs_sub_round _
  have habs2 := abs_le.mp habs
  have ha0 : 0 ≤ round (((p : ℚ) - 1100) * 73 / 80) := by
    rw [round_eq]
    exact Int.le_floor.mpr (by push_cast; linarith)
  have ha0q : (0 : ℚ) ≤ ((round (((p : ℚ) - 1100) * 73 / 80) : ℤ) : ℚ) := by
    exact_mod_cast ha0
  have ha1 : round (((p : ℚ) - 1100) * 73 / 80) ≤ 1460 := by
    have hc : ((round (((p : ℚ) - 1100) * 73 / 80) : ℤ) : ℚ) < 1461 := by
      linarith [habs2.2]
    have hc2 : round (((p : ℚ) - 1100) * 73 / 80) < (1461 : ℤ) := by
      exact_mod_cast hc
    omega
  have ha1q : ((round (((p : ℚ) - 1100) * 73 / 80) : ℤ) : ℚ) ≤ 1460 := by
    exact_mod_cast ha1
  rw [hPA]
  simp only [angle_to_position, pyInt]
  rw [min_eq_right (by linarith), max_eq_right (by linarith)]
  have hx : (0 : ℚ) ≤ ((round (((p : ℚ) - 1100) * 73 / 80) : ℤ) : ℚ) / 10 /
      146 * ((2700 : ℚ) - 1100) :=
    mul_nonneg (div_nonneg (div_nonneg ha0q (by norm_num)) (by norm_num))
      (by norm_num)
  rw [if_pos (by push_cast; linarith)]
  have hkey : ((1100 : ℤ) : ℚ) +
      ((round (((p : ℚ) - 1100) * 73 / 80) : ℤ) : ℚ) / 10 / 146 *
        (((2700 : ℤ) : ℚ) - ((1100 : ℤ) : ℚ)) =
      (p : ℚ) + (((round (((p : ℚ) - 1100) * 73 / 80) : ℤ) : ℚ) -
        ((p : ℚ) - 1100) * 73 / 80) * 80 / 73 := by
    push_cast
    ring
  rw [hkey, Int.floor_int_add]
  have hf1 : ⌊(((round (((p : ℚ) - 1100) * 73 / 80) : ℤ) : ℚ) -
      ((p : ℚ) - 1100) * 73 / 80) * 80 / 73⌋ < 1 :=
    Int.floor_lt.mpr (by push_cast; linarith [habs2.2])
  have hf2 : -1 ≤ ⌊(((round (((p : ℚ) - 1100) * 73 / 80) : ℤ) : ℚ) -
      ((p : ℚ) - 1100) * 73 / 80) * 80 / 73⌋ :=
    Int.le_floor.mpr (by push_cast; linarith [habs2.1])
  omega

/-- C9 witness: the round trip at position 2048. -/
theorem angle_roundtrip_within_one_witness :
    (1100 : ℤ) ≤ 2048 ∧ (2048 : ℤ) ≤ 2700 ∧
    (angle_to_position {} (position_to_angle {} 2048) - 2048).natAbs ≤ 1 :=
  ⟨by decide, by decide, angle_roundtrip_within_one 2048 (by decide) (by decide)⟩

end Isabella

